import Mathlib

/-!
Verification of the Conductor user-directory service (`src/migrations/crud.py`).

The service is a small HTTP CRUD API over a single `users(id, name, email)`
table.  We embed the relational store as a `DB` value (the set of rows plus
the next store-assigned id) and each route handler as a Lean function from
the store (and the request data) to an HTTP response paired with the store
left behind by the request.  SQL statements are translated one by one:
`SELECT ... ORDER BY id` becomes a sort, `INSERT ... RETURNING` appends a
fresh row, `UPDATE ... WHERE id=:id` maps over the rows, `DELETE` filters.
The validation layer (`UserIn` with pydantic `EmailStr`) and the API-key
middleware are embedded as explicit functions that run before the handler.
-/

/-- A row of the `users` table: columns `id`, `name`, `email`. -/
structure Row where
  id : Nat
  name : String
  email : String
deriving DecidableEq

/-- The relational store: the rows of `users` plus the next id the store
will assign (ids are store-assigned, unique, monotone). -/
structure DB where
  nextId : Nat
  rows : List Row
deriving DecidableEq

/-- Response bodies the service can produce. -/
inductive Body where
  /-- the health payload -/
  | health
  /-- a JSON array of user records -/
  | users (rows : List Row)
  /-- a single user record -/
  | user (r : Row)
  /-- the middleware JSON body -/
  | errorObj (msg : String)
  /-- an `HTTPException` detail string -/
  | detail (msg : String)
  /-- the validation layer structured 422 body -/
  | validationErr
  /-- empty body -/
  | empty
deriving DecidableEq

/-- An HTTP response: status code and body. -/
structure Response where
  status : Nat
  body : Body
deriving DecidableEq

/-- A validated request body, as in `class UserIn(BaseModel)` (crud.py
lines 34-36): `name : str`, `email : EmailStr`. -/
structure UserIn where
  name : String
  email : String
deriving DecidableEq

/-- A raw inbound JSON body before validation: each field may be absent. -/
structure RawBody where
  name : Option String
  email : Option String
deriving DecidableEq

/-- Split a character list at every occurrence of `c` (the pieces do not
contain `c`; `n` separators yield `n + 1` pieces). -/
def splitOnChar (c : Char) : List Char → List (List Char)
  | [] => [[]]
  | x :: xs =>
      if x = c then [] :: splitOnChar c xs
      else
        match splitOnChar c xs with
        | [] => [[x]]
        | y :: ys => (x :: y) :: ys

/-- Modelled from the spec: the syntactic email-address check performed by
the validation layer (pydantic `EmailStr`, third-party code not in this
repository).  Simplified to the shape `local@domain` with nonempty local
part and a dotted domain of nonempty labels. -/
def isValidEmail (s : String) : Bool :=
  match splitOnChar '@' s.data with
  | [loc, domain] =>
      !loc.isEmpty && (splitOnChar '.' domain).length ≥ 2 &&
        (splitOnChar '.' domain).all (fun l => !l.isEmpty)
  | _ => false

/-- The validation layer applied to a raw body, per `UserIn`: both fields
required, `email` must be syntactically valid; on failure the request is
rejected with a structured 422 before the handler runs. -/
def validateUserIn (raw : RawBody) : Option UserIn :=
  match raw.name, raw.email with
  | some n, some e => if isValidEmail e then some ⟨n, e⟩ else none
  | _, _ => none

/-- Outcome of the HTTP middleware: either a short-circuit response, an
uncaught runtime exception (surfaced by the framework as HTTP 500), or
passing the request on to the route handler. -/
inductive GuardOutcome where
  | response (r : Response)
  | raiseError (msg : String)
  | passThrough
deriving DecidableEq

/-- `api_key_guard` (crud.py lines 27-31).  `API_KEY` is truthy only when
set and nonempty.  On mismatch the code evaluates
`fastapi.responses.JSONResponse(...)`, but the module never binds the name
`fastapi` (it only does `from fastapi import ...`), so that branch raises
`NameError` instead of returning the 401 JSON response. -/
def api_key_guard (apiKey : Option String) (xApiKey : Option String) : GuardOutcome :=
  match apiKey with
  | none => .passThrough
  | some key =>
      if key = "" then .passThrough
      else if xApiKey = some key then .passThrough
      else .raiseError "NameError: the name fastapi is not defined"

/-- `health` (crud.py lines 41-42): returns `{"ok": true}` and touches no
database state. -/
def health (db : DB) : Response × DB :=
  (⟨200, .health⟩, db)

/-- Row order used by `ORDER BY id`: ascending id. -/
def idLe (a b : Row) : Prop := a.id ≤ b.id

instance : DecidableRel idLe := fun a b => inferInstanceAs (Decidable (a.id ≤ b.id))

instance : IsTotal Row idLe := ⟨fun a b => Nat.le_total a.id b.id⟩

instance : IsTrans Row idLe := ⟨fun _ _ _ => Nat.le_trans⟩

/-- `list_users` (crud.py lines 44-48): `SELECT id, name, email FROM users
ORDER BY id`, returned as a JSON array with HTTP 200; read-only. -/
def list_users (db : DB) : Response × DB :=
  (⟨200, .users (db.rows.insertionSort idLe)⟩, db)

/-- `create_user` (crud.py lines 50-62): `INSERT INTO users(name,email)
... RETURNING id, name, email`, then commit; on any raised error the
transaction is rolled back and HTTP 400 with detail
`insert failed: <cause>` is returned.  The store-side failure (constraint
violation, connectivity, ...) is outside this repository, so the insert
outcome is a parameter: `insertErr = some e` means the write raised with
cause text `e`. -/
def create_user (db : DB) (body : UserIn) (insertErr : Option String) : Response × DB :=
  match insertErr with
  | some e => (⟨400, .detail ("insert failed: " ++ e)⟩, db)
  | none =>
      let row : Row := ⟨db.nextId, body.name, body.email⟩
      (⟨201, .user row⟩, ⟨db.nextId + 1, db.rows ++ [row]⟩)

/-- `get_user` (crud.py lines 64-69): `SELECT ... WHERE id=:id`, `.first()`;
404 `"not found"` when no row matches; read-only. -/
def get_user (db : DB) (user_id : Nat) : Response × DB :=
  match db.rows.find? (fun r => r.id == user_id) with
  | some r => (⟨200, .user r⟩, db)
  | none => (⟨404, .detail "not found"⟩, db)

/-- `update_user` (crud.py lines 71-81): `UPDATE users SET name=:n,
email=:e WHERE id=:id RETURNING id, name, email`, `.first()`; 404 when no
row matched (the session closes uncommitted, a no-op), otherwise commit and
return the updated row.  Both fields are always overwritten together. -/
def update_user (db : DB) (user_id : Nat) (body : UserIn) : Response × DB :=
  let newRows := db.rows.map fun r =>
    if r.id == user_id then { r with name := body.name, email := body.email } else r
  match newRows.find? (fun r => r.id == user_id) with
  | some r => (⟨200, .user r⟩, { db with rows := newRows })
  | none => (⟨404, .detail "not found"⟩, db)

/-- `delete_user` (crud.py lines 83-89): `DELETE FROM users WHERE id=:id`;
404 when `rowcount == 0` (nothing to commit), otherwise commit and return
HTTP 204 with empty body. -/
def delete_user (db : DB) (user_id : Nat) : Response × DB :=
  if db.rows.countP (fun r => r.id == user_id) == 0 then
    (⟨404, .detail "not found"⟩, db)
  else
    (⟨204, .empty⟩, { db with rows := db.rows.filter fun r => !(r.id == user_id) })

/-- The full `POST /users` request path: the validation layer runs on the
raw body before `create_user`; a validation failure yields the structured
422 response and the handler never runs. -/
def post_users (db : DB) (raw : RawBody) (insertErr : Option String) : Response × DB :=
  match validateUserIn raw with
  | none => (⟨422, .validationErr⟩, db)
  | some body => create_user db body insertErr

/-- The full `PATCH /users/:id` request path: validation before
`update_user`, as for create. -/
def patch_users (db : DB) (user_id : Nat) (raw : RawBody) : Response × DB :=
  match validateUserIn raw with
  | none => (⟨422, .validationErr⟩, db)
  | some body => update_user db user_id body

/-- Store well-formedness: row ids are distinct and below the next
store-assigned id (ids are unique and monotonically assigned). -/
def DB.WF (db : DB) : Prop :=
  (db.rows.map Row.id).Nodup ∧ ∀ r ∈ db.rows, r.id < db.nextId

instance (db : DB) : Decidable db.WF :=
  inferInstanceAs (Decidable (_ ∧ _))

/-- Invariant on the store contents: every stored row has a syntactically
valid email. -/
def EmailInv (db : DB) : Prop := ∀ r ∈ db.rows, isValidEmail r.email = true

/-- A body accepted by the validation layer has a valid email. -/
theorem validateUserIn_email (raw : RawBody) (b : UserIn)
    (h : validateUserIn raw = some b) : isValidEmail b.email = true := by
  rcases raw with ⟨nOpt, eOpt⟩
  cases nOpt with
  | none => simp [validateUserIn] at h
  | some n =>
    cases eOpt with
    | none => simp [validateUserIn] at h
    | some e =>
      simp only [validateUserIn] at h
      by_cases hv : isValidEmail e = true
      · rw [if_pos hv] at h
        cases h
        exact hv
      · rw [if_neg hv] at h
        cases h

/-- When no stored row has id `uid`, the `WHERE id=:id` lookup finds
nothing. -/
theorem find?_eq_none_of_absent (l : List Row) (uid : Nat)
    (h : ∀ r ∈ l, r.id ≠ uid) : l.find? (fun r => r.id == uid) = none :=
  List.find?_eq_none.mpr fun r hr => by simpa using h r hr

/-- The `UPDATE ... WHERE id=:id RETURNING` row: when some row has id
`uid`, the first match in the overwritten row list is exactly the row with
that id carrying the new `name` and `email`. -/
theorem find?_map_overwrite (body : UserIn) (uid : Nat) :
    ∀ l : List Row, (∃ r ∈ l, r.id = uid) →
      (l.map fun r =>
          if r.id == uid then { r with name := body.name, email := body.email } else r).find?
        (fun r => r.id == uid) = some ⟨uid, body.name, body.email⟩ := by
  intro l
  induction l with
  | nil => rintro ⟨r, hr, -⟩; exact absurd hr (List.not_mem_nil r)
  | cons a l ih =>
    rintro ⟨r, hr, hid⟩
    by_cases ha : a.id = uid
    · have hfa : (if (a.id == uid) = true
            then ({ a with name := body.name, email := body.email } : Row) else a) =
          ⟨uid, body.name, body.email⟩ := by
        rw [if_pos (by simpa using ha)]
        cases a
        simp_all
      rw [List.map_cons, hfa, List.find?_cons_of_pos _ (by simp)]
    · have h' : ∃ r ∈ l, r.id = uid := by
        rcases List.mem_cons.mp hr with rfl | hr'
        · exact absurd hid ha
        · exact ⟨r, hr', hid⟩
      have hfa : (if (a.id == uid) = true
            then ({ a with name := body.name, email := body.email } : Row) else a) = a :=
        if_neg (by simpa using ha)
      rw [List.map_cons, hfa, List.find?_cons_of_neg _ (by simpa using ha)]
      exact ih h'

/-- C1: the claim fails on the code as written.  With a shared API key
configured (`"secret"`) and a request lacking the `x-api-key` header, the
middleware branch evaluates `fastapi.responses.JSONResponse`, but the
module never binds the name `fastapi` (it only uses `from fastapi import
...`), so the guard raises `NameError` — surfaced by the framework as HTTP
500 — instead of returning the documented 401 `{"error": "unauthorized"}`
response. -/
theorem C1_guard_raises_name_error :
    api_key_guard (some "secret") none =
      .raiseError "NameError: the name fastapi is not defined" := rfl

/-- C2: when the `INSERT` raises with cause `e`, `create_user` rolls back
(the store is returned unchanged, without the partially-inserted row) and
responds HTTP 400 with detail `insert failed: e`. -/
theorem C2_insert_failure_rollback (db : DB) (body : UserIn) (e : String) :
    create_user db body (some e) = (⟨400, .detail ("insert failed: " ++ e)⟩, db) := rfl

/-- C3: for a well-formed store (ids unique and below the next assigned
id) and any valid body, a successful create returns HTTP 201 with a record
carrying the store-assigned id and the given name and email, and a
subsequent get with that id returns a record with the identical name and
email. -/
theorem C3_create_get_roundtrip (db : DB) (body : UserIn) (h : db.WF) :
    (create_user db body none).1 = ⟨201, .user ⟨db.nextId, body.name, body.email⟩⟩ ∧
    (get_user (create_user db body none).2 db.nextId).1 =
      ⟨200, .user ⟨db.nextId, body.name, body.email⟩⟩ := by
  have h1 : db.rows.find? (fun r => r.id == db.nextId) = none :=
    find?_eq_none_of_absent db.rows db.nextId fun r hr => Nat.ne_of_lt (h.2 r hr)
  have h2 : (db.rows ++ [(⟨db.nextId, body.name, body.email⟩ : Row)]).find?
      (fun r => r.id == db.nextId) = some ⟨db.nextId, body.name, body.email⟩ := by
    rw [List.find?_append, h1]
    simp [List.find?]
  exact ⟨rfl, by simp [create_user, get_user, h2]⟩

/-- C3 witness: creating Ada in an empty well-formed store and reading the
assigned id back. -/
theorem C3_create_get_roundtrip_witness :
    (DB.WF ⟨1, []⟩) ∧
    ((create_user ⟨1, []⟩ ⟨"Ada", "ada@example.com"⟩ none).1 =
        ⟨201, .user ⟨1, "Ada", "ada@example.com"⟩⟩ ∧
      (get_user (create_user ⟨1, []⟩ ⟨"Ada", "ada@example.com"⟩ none).2 1).1 =
        ⟨200, .user ⟨1, "Ada", "ada@example.com"⟩⟩) :=
  ⟨by decide, C3_create_get_roundtrip ⟨1, []⟩ ⟨"Ada", "ada@example.com"⟩ (by decide)⟩

/-- C4: updating an existing id overwrites name and email together: the
response is HTTP 200 with a record whose id is the requested one carrying
the new name and email, and a subsequent get returns the new values. -/
theorem C4_update_overwrites (db : DB) (uid : Nat) (body : UserIn)
    (h : ∃ r ∈ db.rows, r.id = uid) :
    (update_user db uid body).1 = ⟨200, .user ⟨uid, body.name, body.email⟩⟩ ∧
    (get_user (update_user db uid body).2 uid).1 =
      ⟨200, .user ⟨uid, body.name, body.email⟩⟩ := by
  have hf := find?_map_overwrite body uid db.rows h
  constructor
  · unfold update_user
    simp only [hf]
  · unfold update_user
    simp only [hf]
    unfold get_user
    simp only [hf]

/-- C4 witness: updating user 1 from Ada to Grace. -/
theorem C4_update_overwrites_witness :
    (∃ r ∈ (⟨2, [⟨1, "Ada", "ada@example.com"⟩]⟩ : DB).rows, r.id = 1) ∧
    ((update_user ⟨2, [⟨1, "Ada", "ada@example.com"⟩]⟩ 1 ⟨"Grace", "grace@example.com"⟩).1 =
        ⟨200, .user ⟨1, "Grace", "grace@example.com"⟩⟩ ∧
      (get_user (update_user ⟨2, [⟨1, "Ada", "ada@example.com"⟩]⟩ 1
            ⟨"Grace", "grace@example.com"⟩).2 1).1 =
        ⟨200, .user ⟨1, "Grace", "grace@example.com"⟩⟩) :=
  ⟨by decide,
    C4_update_overwrites ⟨2, [⟨1, "Ada", "ada@example.com"⟩]⟩ 1
      ⟨"Grace", "grace@example.com"⟩ (by decide)⟩

/-- C5: the list operation answers HTTP 200 with an array holding every
stored row exactly once (a permutation of the store) in ascending id
order; an empty store yields the empty array. -/
theorem C5_list_ordered (db : DB) :
    (list_users db).1.status = 200 ∧
    (∃ l, (list_users db).1.body = .users l ∧ List.Perm l db.rows ∧ l.Sorted idLe) ∧
    (list_users ⟨1, []⟩).1.body = .users [] :=
  ⟨rfl,
    ⟨db.rows.insertionSort idLe, rfl, List.perm_insertionSort idLe db.rows,
      List.sorted_insertionSort idLe db.rows⟩,
    rfl⟩

/-- C6: get, update and delete on an id absent from the store all answer
HTTP 404 with reason `not found` and leave the store exactly as it was. -/
theorem C6_not_found (db : DB) (uid : Nat) (body : UserIn)
    (h : ∀ r ∈ db.rows, r.id ≠ uid) :
    get_user db uid = (⟨404, .detail "not found"⟩, db) ∧
    update_user db uid body = (⟨404, .detail "not found"⟩, db) ∧
    delete_user db uid = (⟨404, .detail "not found"⟩, db) := by
  have hg : db.rows.find? (fun r => r.id == uid) = none :=
    find?_eq_none_of_absent db.rows uid h
  have hu : (db.rows.map fun r =>
        if r.id == uid then { r with name := body.name, email := body.email } else r).find?
      (fun r => r.id == uid) = none := by
    refine List.find?_eq_none.mpr ?_
    rintro x hx
    obtain ⟨r, hr, rfl⟩ := List.mem_map.mp hx
    have hfr : (if (r.id == uid) = true
          then ({ r with name := body.name, email := body.email } : Row) else r) = r :=
      if_neg (by simpa using h r hr)
    rw [hfr]
    simpa using h r hr
  have hd : db.rows.countP (fun r => r.id == uid) = 0 :=
    List.countP_eq_zero.mpr fun r hr => by simpa using h r hr
  refine ⟨?_, ?_, ?_⟩
  · unfold get_user
    rw [hg]
  · simp only [update_user, hu]
  · unfold delete_user
    rw [hd]
    rfl

/-- C6 witness: id 999999 against a one-user store. -/
theorem C6_not_found_witness :
    (∀ r ∈ (⟨2, [⟨1, "Ada", "ada@example.com"⟩]⟩ : DB).rows, r.id ≠ 999999) ∧
    (get_user ⟨2, [⟨1, "Ada", "ada@example.com"⟩]⟩ 999999 =
        (⟨404, .detail "not found"⟩, ⟨2, [⟨1, "Ada", "ada@example.com"⟩]⟩) ∧
      update_user ⟨2, [⟨1, "Ada", "ada@example.com"⟩]⟩ 999999 ⟨"Bob", "bob@example.com"⟩ =
        (⟨404, .detail "not found"⟩, ⟨2, [⟨1, "Ada", "ada@example.com"⟩]⟩) ∧
      delete_user ⟨2, [⟨1, "Ada", "ada@example.com"⟩]⟩ 999999 =
        (⟨404, .detail "not found"⟩, ⟨2, [⟨1, "Ada", "ada@example.com"⟩]⟩)) :=
  ⟨by decide,
    C6_not_found ⟨2, [⟨1, "Ada", "ada@example.com"⟩]⟩ 999999 ⟨"Bob", "bob@example.com"⟩
      (by decide)⟩

/-- C7: deleting an id present in a well-formed store answers HTTP 204
with empty body, removes exactly that one row (the store shrinks by one, a
subsequent get answers 404), and every other row is unchanged and still
returned by the list operation. -/
theorem C7_delete_removes_one (db : DB) (uid : Nat) (hwf : db.WF)
    (h : ∃ r ∈ db.rows, r.id = uid) :
    (delete_user db uid).1 = ⟨204, .empty⟩ ∧
    (delete_user db uid).2.rows = db.rows.filter (fun r => !(r.id == uid)) ∧
    db.rows.length = (delete_user db uid).2.rows.length + 1 ∧
    (get_user (delete_user db uid).2 uid).1 = ⟨404, .detail "not found"⟩ ∧
    ∀ r ∈ db.rows, r.id ≠ uid →
      ∃ l, (list_users (delete_user db uid).2).1.body = .users l ∧ r ∈ l := by
  obtain ⟨r0, hr0, hid0⟩ := h
  have hcnt : db.rows.countP (fun r => r.id == uid) = 1 := by
    have hmem : uid ∈ db.rows.map Row.id := List.mem_map.mpr ⟨r0, hr0, hid0⟩
    have h1 : (db.rows.map Row.id).count uid = 1 := List.count_eq_one_of_mem hwf.1 hmem
    rw [List.count_eq_countP, List.countP_map] at h1
    exact h1
  have hne : (db.rows.countP (fun r => r.id == uid) == 0) = false := by
    rw [hcnt]
    rfl
  have hdel : delete_user db uid =
      (⟨204, .empty⟩, ⟨db.nextId, db.rows.filter fun r => !(r.id == uid)⟩) := by
    unfold delete_user
    rw [hne]
    rfl
  refine ⟨by rw [hdel], by rw [hdel], ?_, ?_, ?_⟩
  · have hperm := (List.filter_append_perm (fun r => r.id == uid) db.rows).length_eq
    rw [List.length_append, ← List.countP_eq_length_filter, hcnt] at hperm
    rw [hdel]
    show db.rows.length = (db.rows.filter fun r => !(r.id == uid)).length + 1
    omega
  · rw [hdel]
    unfold get_user
    have hfnone : (db.rows.filter fun r => !(r.id == uid)).find? (fun r => r.id == uid) = none := by
      refine List.find?_eq_none.mpr ?_
      intro x hx
      have hpx := (List.mem_filter.mp hx).2
      simpa using hpx
    rw [hfnone]
  · intro r hr hrne
    refine ⟨(db.rows.filter fun r => !(r.id == uid)).insertionSort idLe,
      by rw [hdel]; rfl, ?_⟩
    exact (List.mem_insertionSort idLe).mpr
      (List.mem_filter.mpr ⟨hr, by simpa using hrne⟩)

/-- C7 witness: deleting user 1 from a two-user store. -/
theorem C7_delete_removes_one_witness :
    (DB.WF ⟨3, [⟨1, "Ada", "ada@example.com"⟩, ⟨2, "Bob", "bob@example.com"⟩]⟩) ∧
    (∃ r ∈ (⟨3, [⟨1, "Ada", "ada@example.com"⟩, ⟨2, "Bob", "bob@example.com"⟩]⟩ : DB).rows,
      r.id = 1) ∧
    ((delete_user ⟨3, [⟨1, "Ada", "ada@example.com"⟩, ⟨2, "Bob", "bob@example.com"⟩]⟩ 1).1 =
        ⟨204, .empty⟩ ∧
      (delete_user ⟨3, [⟨1, "Ada", "ada@example.com"⟩, ⟨2, "Bob", "bob@example.com"⟩]⟩ 1).2.rows =
        (⟨3, [⟨1, "Ada", "ada@example.com"⟩, ⟨2, "Bob", "bob@example.com"⟩]⟩ : DB).rows.filter
          (fun r => !(r.id == 1)) ∧
      (⟨3, [⟨1, "Ada", "ada@example.com"⟩, ⟨2, "Bob", "bob@example.com"⟩]⟩ : DB).rows.length =
        (delete_user ⟨3, [⟨1, "Ada", "ada@example.com"⟩, ⟨2, "Bob", "bob@example.com"⟩]⟩
            1).2.rows.length + 1 ∧
      (get_user (delete_user ⟨3, [⟨1, "Ada", "ada@example.com"⟩, ⟨2, "Bob", "bob@example.com"⟩]⟩
            1).2 1).1 = ⟨404, .detail "not found"⟩ ∧
      ∀ r ∈ (⟨3, [⟨1, "Ada", "ada@example.com"⟩, ⟨2, "Bob", "bob@example.com"⟩]⟩ : DB).rows,
        r.id ≠ 1 →
        ∃ l, (list_users (delete_user
              ⟨3, [⟨1, "Ada", "ada@example.com"⟩, ⟨2, "Bob", "bob@example.com"⟩]⟩ 1).2).1.body =
            .users l ∧ r ∈ l) :=
  ⟨by decide, by decide,
    C7_delete_removes_one ⟨3, [⟨1, "Ada", "ada@example.com"⟩, ⟨2, "Bob", "bob@example.com"⟩]⟩ 1
      (by decide) (by decide)⟩

/-- C8: a create or update request whose body misses a required field or
carries a syntactically invalid email is rejected with the structured 422
validation response before the handler runs, and the store is unchanged. -/
theorem C8_validation_rejected (db : DB) (raw : RawBody) (insertErr : Option String) (uid : Nat)
    (h : raw.name = none ∨ raw.email = none ∨
      ∃ e, raw.email = some e ∧ isValidEmail e = false) :
    post_users db raw insertErr = (⟨422, .validationErr⟩, db) ∧
    patch_users db uid raw = (⟨422, .validationErr⟩, db) := by
  have hv : validateUserIn raw = none := by
    rcases raw with ⟨nOpt, eOpt⟩
    cases nOpt <;> cases eOpt <;> simp_all [validateUserIn]
  exact ⟨by simp [post_users, hv], by simp [patch_users, hv]⟩

/-- C8 witness: `email = "not-an-email"` is rejected by both create and
update without touching the store. -/
theorem C8_validation_rejected_witness :
    ((⟨some "Ada", some "not-an-email"⟩ : RawBody).name = none ∨
      (⟨some "Ada", some "not-an-email"⟩ : RawBody).email = none ∨
      ∃ e, (⟨some "Ada", some "not-an-email"⟩ : RawBody).email = some e ∧
        isValidEmail e = false) ∧
    (post_users ⟨1, []⟩ ⟨some "Ada", some "not-an-email"⟩ none =
        (⟨422, .validationErr⟩, ⟨1, []⟩) ∧
      patch_users ⟨1, []⟩ 7 ⟨some "Ada", some "not-an-email"⟩ =
        (⟨422, .validationErr⟩, ⟨1, []⟩)) :=
  ⟨.inr (.inr ⟨"not-an-email", rfl, by decide⟩),
    C8_validation_rejected ⟨1, []⟩ ⟨some "Ada", some "not-an-email"⟩ none 7
      (.inr (.inr ⟨"not-an-email", rfl, by decide⟩))⟩

/-- C9: the claim as stated is false on the code: a create whose body has
the empty string as name passes validation (`name : str` only requires the
field to be a present string) and writes a row with an empty name, starting
from a store that satisfies the claimed invariant. -/
theorem C9_empty_name_stored :
    (post_users ⟨1, []⟩ ⟨some "", some "ada@example.com"⟩ none).1.status = 201 ∧
    (⟨1, "", "ada@example.com"⟩ : Row) ∈
      (post_users ⟨1, []⟩ ⟨some "", some "ada@example.com"⟩ none).2.rows ∧
    (⟨1, "", "ada@example.com"⟩ : Row).name = "" := by decide

/-- C9 (amended): every row written by create or update carries a present
(possibly empty) name and a syntactically valid email, so the invariant
"every stored row's email is syntactically valid" is preserved by every
operation. -/
theorem C9_email_invariant (db : DB) (raw : RawBody) (insertErr : Option String) (uid : Nat)
    (h : EmailInv db) :
    EmailInv (health db).2 ∧ EmailInv (list_users db).2 ∧ EmailInv (get_user db uid).2 ∧
    EmailInv (post_users db raw insertErr).2 ∧ EmailInv (patch_users db uid raw).2 ∧
    EmailInv (delete_user db uid).2 := by
  refine ⟨h, h, ?_, ?_, ?_, ?_⟩
  · cases hf : db.rows.find? (fun r => r.id == uid) with
    | none => unfold get_user; rw [hf]; exact h
    | some r => unfold get_user; rw [hf]; exact h
  · unfold post_users
    cases hv : validateUserIn raw with
    | none => simp only [hv]; exact h
    | some b =>
      simp only [hv]
      cases insertErr with
      | some e => exact h
      | none =>
        show ∀ r ∈ db.rows ++ [(⟨db.nextId, b.name, b.email⟩ : Row)],
          isValidEmail r.email = true
        intro r hr
        rcases List.mem_append.mp hr with hr1 | hr2
        · exact h r hr1
        · rw [List.mem_singleton.mp hr2]
          exact validateUserIn_email raw b hv
  · unfold patch_users
    cases hv : validateUserIn raw with
    | none => simp only [hv]; exact h
    | some b =>
      simp only [hv]
      unfold update_user
      cases hf : (db.rows.map fun r =>
          if r.id == uid then { r with name := b.name, email := b.email } else r).find?
          (fun r => r.id == uid) with
      | none => simp only [hf]; exact h
      | some rr =>
        simp only [hf]
        show ∀ r ∈ db.rows.map (fun r =>
            if r.id == uid then { r with name := b.name, email := b.email } else r),
          isValidEmail r.email = true
        intro r hr
        obtain ⟨r1, hr1, rfl⟩ := List.mem_map.mp hr
        by_cases hid : r1.id = uid
        · rw [if_pos (by simpa using hid)]
          exact validateUserIn_email raw b hv
        · rw [if_neg (by simpa using hid)]
          exact h r1 hr1
  · unfold delete_user
    by_cases hc : (db.rows.countP (fun r => r.id == uid) == 0) = true
    · rw [if_pos hc]
      exact h
    · rw [if_neg hc]
      intro r hr
      exact h r (List.mem_of_mem_filter hr)

/-- C9 amended-claim witness: the empty store satisfies the invariant and
a create of Ada preserves it across all operations. -/
theorem C9_email_invariant_witness :
    EmailInv ⟨1, []⟩ ∧
    (EmailInv (health ⟨1, []⟩).2 ∧ EmailInv (list_users ⟨1, []⟩).2 ∧
      EmailInv (get_user ⟨1, []⟩ 5).2 ∧
      EmailInv (post_users ⟨1, []⟩ ⟨some "Ada", some "ada@example.com"⟩ none).2 ∧
      EmailInv (patch_users ⟨1, []⟩ 5 ⟨some "Ada", some "ada@example.com"⟩).2 ∧
      EmailInv (delete_user ⟨1, []⟩ 5).2) :=
  ⟨fun r hr => absurd hr (List.not_mem_nil r),
    C9_email_invariant ⟨1, []⟩ ⟨some "Ada", some "ada@example.com"⟩ none 5
      (fun r hr => absurd hr (List.not_mem_nil r))⟩

/-- C10: the health, list and get operations are read-only: the store they
return is exactly the store they were given. -/
theorem C10_read_only (db : DB) (uid : Nat) :
    (health db).2 = db ∧ (list_users db).2 = db ∧ (get_user db uid).2 = db := by
  refine ⟨rfl, rfl, ?_⟩
  cases hf : db.rows.find? (fun r => r.id == uid) with
  | none => unfold get_user; rw [hf]
  | some r => unfold get_user; rw [hf]
